import Mathlib

/-!
Shallow embedding of the library-item lifecycle manager of the
`library-backend` repository (FastAPI + SQLAlchemy + S3).

The embedding covers:
* the `LibraryItem` model (`app/models/library_item.py`), including the
  `updated_at` column's `onupdate=func.now()` clock and the
  `soft_delete` / `restore` instance methods;
* the generic CRUD layer (`app/crud/base.py`): `get`, `update`, `remove`,
  `soft_delete`, `restore`;
* the item-specific CRUD layer (`app/crud/library_item.py`): `get_by_user`,
  `get_by_type`, `search_items`, `count_user_items`, `update_item`,
  `delete_item`, `restore_item`;
* the HTTP handlers of `app/api/v1/library_items.py`: the reconciliation
  loop of `get_my_library_items`, `get_library_item`, `update_library_item`,
  `delete_library_item`, `restore_library_item`;
* `CommonQueryParams` of `app/api/deps.py` (limit capped at 100).

Conventions: the relational table is a list of rows (`DB`); primary-key ids
are `Nat`; user ids and S3 keys are `String`; timestamps are `Nat` clock
values passed in explicitly where the code calls `func.now()` /
`datetime.utcnow()`.  The external blob store is a function
`String → Bool` for existence checks (`s3_service.file_exists`) and a
function `String → Bool` for per-key delete outcomes
(`s3_service.delete_file` returns a success boolean which the caller
discards).  Python string truthiness (`if item.s3_key:`) is translated as
"present and non-empty".
-/

namespace LibraryBackend

/-- Embeds `ItemType` enum of `app/models/library_item.py`. -/
inductive ItemType where
  | image
  | document
  | file
  | video
  deriving DecidableEq, BEq, Repr

/-- Embeds `VisibilityType` enum of `app/models/library_item.py`. -/
inductive VisibilityType where
  | public
  | «private»
  deriving DecidableEq, BEq, Repr

/-- Row of the `library_items` table (`app/models/library_item.py`). -/
structure LibraryItem where
  id : Nat
  user_id : String
  name : String
  type : ItemType
  mime_type : String
  visibility : VisibilityType
  s3_thumbnail_key : Option String
  s3_preview_key : Option String
  s3_subtitle_key : Option String
  s3_key : String
  file_size : Nat
  preview_text : Option String
  original_filename : String
  created_at : Nat
  updated_at : Nat
  deleted_at : Option Nat
  deriving DecidableEq, Repr

/-- Embeds `LibraryItem.soft_delete`: sets `deleted_at = datetime.utcnow()`. -/
def LibraryItem.soft_delete (it : LibraryItem) (now : Nat) : LibraryItem :=
  { it with deleted_at := some now }

/-- Embeds `LibraryItem.restore`: sets `deleted_at = None`. -/
def LibraryItem.restore (it : LibraryItem) : LibraryItem :=
  { it with deleted_at := none }

/-- The `library_items` table: a list of rows. -/
abbrev DB := List LibraryItem

/-- Embeds `SELECT ... WHERE id == id` + `scalar_one_or_none` (`CRUDBase.get`). -/
def dbGet (db : DB) (id : Nat) : Option LibraryItem :=
  db.find? (fun it => it.id == id)

/-- Persisting a mutated row: replaces the row with the same primary key. -/
def dbSet (db : DB) (obj : LibraryItem) : DB :=
  db.map (fun it => if it.id == obj.id then obj else it)

/-- Embeds `db.delete(obj)`: removes the row with the given primary key. -/
def dbEraseRow (db : DB) (id : Nat) : DB :=
  db.filter (fun it => it.id != id)

/-- Committing an UPDATE of a row: the `updated_at` column carries
`onupdate=func.now()`, so every flushed UPDATE also refreshes it. -/
def commitUpdate (db : DB) (obj : LibraryItem) (now : Nat) : DB × LibraryItem :=
  let obj := { obj with updated_at := now }
  (dbSet db obj, obj)

/-- Embeds `LibraryItemUpdate` schema (`app/schemas/library_item.py`): the three
mutable fields; `none` means the field was not supplied
(pydantic `exclude_unset`). -/
structure LibraryItemUpdate where
  name : Option String := none
  visibility : Option VisibilityType := none
  preview_text : Option (Option String) := none
  deriving DecidableEq, Repr

namespace crud

/-- Embeds `CRUDBase.get`. -/
def get (db : DB) (id : Nat) : Option LibraryItem :=
  dbGet db id

/-- Embeds `CRUDBase.update` applied through `LibraryItemUpdate`: sets each
field present in the update payload (`exclude_unset`) on the row. -/
def applyUpdate (it : LibraryItem) (u : LibraryItemUpdate) : LibraryItem :=
  let it := match u.name with
    | some n => { it with name := n }
    | none => it
  let it := match u.visibility with
    | some v => { it with visibility := v }
    | none => it
  match u.preview_text with
  | some p => { it with preview_text := p }
  | none => it

/-- Embeds `CRUDBase.update`: apply the payload, commit, refresh. -/
def update (db : DB) (db_obj : LibraryItem) (obj_in : LibraryItemUpdate)
    (now : Nat) : DB × LibraryItem :=
  commitUpdate db (applyUpdate db_obj obj_in) now

/-- Embeds `CRUDBase.remove`: hard delete by id, returning the deleted row. -/
def remove (db : DB) (id : Nat) : DB × Option LibraryItem :=
  match dbGet db id with
  | none => (db, none)
  | some obj => (dbEraseRow db id, some obj)

/-- Embeds `CRUDBase.soft_delete`: fetch, call `obj.soft_delete()`, commit. -/
def soft_delete (db : DB) (id : Nat) (now : Nat) : DB × Option LibraryItem :=
  match dbGet db id with
  | none => (db, none)
  | some obj =>
    let r := commitUpdate db (obj.soft_delete now) now
    (r.1, some r.2)

/-- Embeds `CRUDBase.restore`: fetch, and only if `obj.deleted_at` is truthy,
call `obj.restore()` and commit; otherwise return the row unchanged. -/
def restore (db : DB) (id : Nat) (now : Nat) : DB × Option LibraryItem :=
  match dbGet db id with
  | none => (db, none)
  | some obj =>
    if obj.deleted_at.isSome then
      let r := commitUpdate db obj.restore now
      (r.1, some r.2)
    else
      (db, some obj)

/-- Embeds `CRUDLibraryItem.update_item`: owner-scoped update; non-owner or
missing id yields the `None` sentinel and no change. -/
def update_item (db : DB) (item_id : Nat) (user_id : String)
    (item_in : LibraryItemUpdate) (now : Nat) : DB × Option LibraryItem :=
  match get db item_id with
  | none => (db, none)
  | some item =>
    if item.user_id ≠ user_id then
      (db, none)
    else
      let r := update db item item_in now
      (r.1, some r.2)

/-- The S3 keys of a row for which `delete_item` issues a blob delete:
`s3_key`, `s3_preview_key`, `s3_thumbnail_key`, `s3_subtitle_key`, in that
order, each guarded by Python truthiness (`if item.s3_key:` etc.). -/
def truthyKeys (item : LibraryItem) : List String :=
  (if item.s3_key ≠ "" then [item.s3_key] else [])
  ++ (match item.s3_preview_key with
      | some k => if k ≠ "" then [k] else []
      | none => [])
  ++ (match item.s3_thumbnail_key with
      | some k => if k ≠ "" then [k] else []
      | none => [])
  ++ (match item.s3_subtitle_key with
      | some k => if k ≠ "" then [k] else []
      | none => [])

/-- Embeds `CRUDLibraryItem.delete_item`: owner-scoped delete.  Issues one
`s3_service.delete_file` per truthy key (the returned success boolean,
given here by `deleteOutcome`, is discarded by the caller), then either
soft deletes or removes the row.  Returns the new table, the issued blob
deletes with their outcomes, and the deleted row (or the sentinel). -/
def delete_item (db : DB) (deleteOutcome : String → Bool) (item_id : Nat)
    (user_id : String) (softDeleteFlag : Bool) (now : Nat) :
    DB × List (String × Bool) × Option LibraryItem :=
  match get db item_id with
  | none => (db, [], none)
  | some item =>
    if item.user_id ≠ user_id then
      (db, [], none)
    else
      let blobDeletes := (truthyKeys item).map (fun k => (k, deleteOutcome k))
      if softDeleteFlag then
        let r := soft_delete db item_id now
        (r.1, blobDeletes, r.2)
      else
        let r := remove db item_id
        (r.1, blobDeletes, r.2)

/-- Embeds `CRUDLibraryItem.restore_item`: owner-scoped restore. -/
def restore_item (db : DB) (item_id : Nat) (user_id : String) (now : Nat) :
    DB × Option LibraryItem :=
  match get db item_id with
  | none => (db, none)
  | some item =>
    if item.user_id ≠ user_id then
      (db, none)
    else
      restore db item_id now

/-- Insertion step for `ORDER BY created_at DESC` (stable). -/
def insertByCreatedDesc (x : LibraryItem) : List LibraryItem → List LibraryItem
  | [] => [x]
  | y :: ys =>
    if y.created_at < x.created_at then x :: y :: ys
    else y :: insertByCreatedDesc x ys

/-- Embeds `ORDER BY created_at DESC` on the fetched rows. -/
def sortByCreatedDesc : List LibraryItem → List LibraryItem
  | [] => []
  | x :: xs => insertByCreatedDesc x (sortByCreatedDesc xs)

/-- Embeds `CRUDLibraryItem.get_by_user`: the owner's rows, optionally
including soft-deleted ones, ordered by `created_at` descending, with
offset/limit pagination. -/
def get_by_user (db : DB) (user_id : String) (skip limit : Nat)
    (include_deleted : Bool) : List LibraryItem :=
  (((sortByCreatedDesc (db.filter (fun it =>
      it.user_id == user_id
      && (include_deleted || it.deleted_at.isNone)))).drop skip).take limit)

/-- Embeds `CRUDLibraryItem.get_by_type`: the owner's active rows of one type. -/
def get_by_type (db : DB) (user_id : String) (item_type : ItemType)
    (skip limit : Nat) : List LibraryItem :=
  (((sortByCreatedDesc (db.filter (fun it =>
      it.user_id == user_id
      && it.type == item_type
      && it.deleted_at.isNone))).drop skip).take limit)

/-- Whether the first character list is an initial segment of the second. -/
def charsStartWith : List Char → List Char → Bool
  | [], _ => true
  | _ :: _, [] => false
  | a :: as, b :: bs => a == b && charsStartWith as bs

/-- Whether the first character list occurs contiguously in the second. -/
def charsContain (needle : List Char) : List Char → Bool
  | [] => charsStartWith needle []
  | c :: rest => charsStartWith needle (c :: rest) || charsContain needle rest

/-- Case-insensitive `ILIKE` containment used by `search_items`. -/
def ilikeContains (s q : String) : Bool :=
  charsContain q.toLower.data s.toLower.data

/-- Embeds `CRUDLibraryItem.search_items`: the owner's active rows whose name,
original filename or preview text contains the query (case-insensitive);
a NULL `preview_text` never matches. -/
def search_items (db : DB) (user_id : String) (query : String)
    (skip limit : Nat) : List LibraryItem :=
  (((sortByCreatedDesc (db.filter (fun it =>
      it.user_id == user_id
      && it.deleted_at.isNone
      && (ilikeContains it.name query
          || ilikeContains it.original_filename query
          || (match it.preview_text with
              | some p => ilikeContains p query
              | none => false))))).drop skip).take limit)

/-- Embeds `CRUDLibraryItem.count_user_items`. -/
def count_user_items (db : DB) (user_id : String)
    (item_type : Option ItemType) (include_deleted : Bool) : Nat :=
  (db.filter (fun it =>
      it.user_id == user_id
      && (include_deleted || it.deleted_at.isNone)
      && (match item_type with
          | some t => it.type == t
          | none => true))).length

end crud

/-- Outcome of a request handler: a success payload, or the HTTP error
(`404 Not Found` / `403 Forbidden`) it raises. -/
inductive ApiResult (α : Type) where
  | ok : α → ApiResult α
  | notFound : ApiResult α
  | forbidden : ApiResult α
  deriving DecidableEq, Repr

/-- Embeds `is_owner` check of the `get_library_item` handler:
`current_user and str(item.user_id) == str(current_user.user_id)`. -/
def is_owner (current_user : Option String) (item : LibraryItem) : Bool :=
  match current_user with
  | some u => item.user_id == u
  | none => false

/-- Embeds `GET /library-items/{item_id}` handler (`get_library_item`):
404 if the row is absent; otherwise returned exactly when the requester
is the owner or the item is public, else 403. -/
def get_library_item (db : DB) (item_id : Nat)
    (current_user : Option String) : ApiResult LibraryItem :=
  match crud.get db item_id with
  | none => ApiResult.notFound
  | some item =>
    let is_public := item.visibility == VisibilityType.public
    if is_owner current_user item || is_public then ApiResult.ok item
    else ApiResult.forbidden

/-- Embeds `PUT /library-items/{item_id}` handler (`update_library_item`):
the `None` sentinel from `update_item` becomes a 404. -/
def update_library_item (db : DB) (item_id : Nat) (user_id : String)
    (item_in : LibraryItemUpdate) (now : Nat) : DB × ApiResult LibraryItem :=
  let r := crud.update_item db item_id user_id item_in now
  match r.2 with
  | none => (r.1, ApiResult.notFound)
  | some it => (r.1, ApiResult.ok it)

/-- Embeds `DELETE /library-items/{item_id}` handler (`delete_library_item`).
The `permanent` query parameter defaults to `True`
(`permanent: bool = Query(True, ...)`): `none` models an omitted
parameter.  The handler calls `delete_item` with
`soft_delete=not permanent` and turns the sentinel into a 404; on
success it reports the effective `permanent` flag. -/
def delete_library_item (db : DB) (deleteOutcome : String → Bool)
    (item_id : Nat) (user_id : String) (permanent : Option Bool)
    (now : Nat) : DB × List (String × Bool) × ApiResult Bool :=
  let perm := permanent.getD true
  let r := crud.delete_item db deleteOutcome item_id user_id (!perm) now
  match r.2.2 with
  | none => (r.1, r.2.1, ApiResult.notFound)
  | some _ => (r.1, r.2.1, ApiResult.ok perm)

/-- Embeds `POST /library-items/{item_id}/restore` handler
(`restore_library_item`): the sentinel becomes a 404. -/
def restore_library_item (db : DB) (item_id : Nat) (user_id : String)
    (now : Nat) : DB × ApiResult LibraryItem :=
  let r := crud.restore_item db item_id user_id now
  match r.2 with
  | none => (r.1, ApiResult.notFound)
  | some it => (r.1, ApiResult.ok it)

/-- Embeds `CommonQueryParams` of `app/api/deps.py`: `self.limit = min(limit, 100)`. -/
structure CommonQueryParams where
  skip : Nat
  limit : Nat
  deriving DecidableEq, Repr

/-- Embeds `common_parameters` dependency. -/
def common_parameters (skip limit : Nat) : CommonQueryParams :=
  { skip := skip, limit := min limit 100 }

/-- Embeds `PaginationInfo` of `app/schemas/common.py` as filled in by
`get_my_library_items`. -/
structure PaginationInfo where
  page : Nat
  size : Nat
  total : Nat
  pages : Nat
  has_next : Bool
  has_prev : Bool
  deriving DecidableEq, Repr

/-- Accumulator of the reconciliation loop of `get_my_library_items`:
the evolving table, `valid_items`, `deleted_count`, `restored_count`. -/
structure SyncState where
  db : DB
  valid_items : List LibraryItem
  deleted_count : Nat
  restored_count : Nat
  deriving Repr

/-- One iteration of the reconciliation loop of `get_my_library_items`
(lines 152-173): check `s3_service.file_exists(item.s3_key)`; if present
and the row is soft-deleted, restore it and re-fetch; if present, keep
the row in the response when `include_deleted` or it is active; if
absent and the row is active, soft delete it; an absent blob never adds
the row to `valid_items`. -/
def syncStep (file_exists : String → Bool) (include_deleted : Bool)
    (now : Nat) (st : SyncState) (item : LibraryItem) : SyncState :=
  if file_exists item.s3_key then
    if item.deleted_at.isSome then
      let db1 := (crud.restore st.db item.id now).1
      let item1 := (crud.get db1 item.id).getD item
      { db := db1
        valid_items :=
          if include_deleted || item1.deleted_at.isNone then
            st.valid_items ++ [item1]
          else st.valid_items
        deleted_count := st.deleted_count
        restored_count := st.restored_count + 1 }
    else
      { st with
        valid_items :=
          if include_deleted || item.deleted_at.isNone then
            st.valid_items ++ [item]
          else st.valid_items }
  else
    if item.deleted_at.isNone then
      { st with
        db := (crud.soft_delete st.db item.id now).1
        deleted_count := st.deleted_count + 1 }
    else
      st

/-- The candidate rows fetched by `get_my_library_items` before
reconciliation: search mode when a non-empty search string is given
(Python truthiness of `if search:`), else type-filter mode, else the
default mode which always includes soft-deleted rows. -/
def fetchCandidates (db : DB) (user_id : String) (skip limit : Nat)
    (item_type : Option ItemType) (search : Option String) :
    List LibraryItem :=
  let noSearch : List LibraryItem :=
    match item_type with
    | some t => crud.get_by_type db user_id t skip limit
    | none => crud.get_by_user db user_id skip limit true
  match search with
  | some q => if q.isEmpty then noSearch
              else crud.search_items db user_id q skip limit
  | none => noSearch

/-- Result of `GET /library-items/` (`get_my_library_items`): the
response items, the pagination metadata, and the table as mutated by
reconciliation. -/
structure PaginatedResult where
  items : List LibraryItem
  pagination : PaginationInfo
  db : DB
  deriving Repr

/-- Embeds `GET /library-items/` handler (`get_my_library_items`): fetch the
candidates, run the reconciliation loop, recompute the total after
reconciliation, and build the pagination metadata from `skip`, the
capped limit and that total. -/
def get_my_library_items (db : DB) (file_exists : String → Bool)
    (user_id : String) (skip limit : Nat) (item_type : Option ItemType)
    (search : Option String) (include_deleted : Bool) (now : Nat) :
    PaginatedResult :=
  let commons := common_parameters skip limit
  let items := fetchCandidates db user_id commons.skip commons.limit
    item_type search
  let st := items.foldl (syncStep file_exists include_deleted now)
    { db := db, valid_items := [], deleted_count := 0, restored_count := 0 }
  let total := crud.count_user_items st.db user_id none include_deleted
  let pages := max 1 ((total + commons.limit - 1) / commons.limit)
  let current_page := commons.skip / commons.limit + 1
  { items := st.valid_items
    pagination :=
      { page := current_page
        size := commons.limit
        total := total
        pages := pages
        has_next := decide (current_page < pages)
        has_prev := decide (1 < current_page) }
    db := st.db }

/-! ### Infrastructure lemmas about the table primitives -/

theorem dbGet_id {db : DB} {j : Nat} {x : LibraryItem}
    (h : dbGet db j = some x) : x.id = j := by
  have := List.find?_some h
  simpa using this

theorem dbGet_cons (a : LibraryItem) (l : List LibraryItem) (j : Nat) :
    dbGet (a :: l) j = if a.id == j then some a else dbGet l j := by
  rw [dbGet, List.find?_cons]
  by_cases hb : (a.id == j) = true
  · simp [hb, dbGet]
  · simp only [Bool.not_eq_true] at hb
    simp [hb, dbGet]

theorem dbGet_dbSet_self {db : DB} {obj x : LibraryItem}
    (h : dbGet db obj.id = some x) :
    dbGet (dbSet db obj) obj.id = some obj := by
  induction db with
  | nil => simp [dbGet] at h
  | cons a l ih =>
    rw [dbGet_cons] at h
    by_cases ha : (a.id == obj.id) = true
    · simp only [dbSet, List.map_cons, ha, if_true]
      rw [dbGet_cons]
      simp
    · simp only [Bool.not_eq_true] at ha
      simp only [dbSet, List.map_cons, ha, Bool.false_eq_true, if_false]
      rw [dbGet_cons, ha]
      simp only [Bool.false_eq_true, if_false]
      simp only [ha, Bool.false_eq_true, if_false] at h
      exact ih h

theorem dbGet_dbSet_at (obj : LibraryItem) {db : DB} {x : LibraryItem}
    {j : Nat} (hj : obj.id = j) (h : dbGet db j = some x) :
    dbGet (dbSet db obj) j = some obj := by
  subst hj
  exact dbGet_dbSet_self h

theorem dbGet_dbSet_ne {db : DB} {obj : LibraryItem} {j : Nat}
    (h : j ≠ obj.id) :
    dbGet (dbSet db obj) j = dbGet db j := by
  induction db with
  | nil => rfl
  | cons a l ih =>
    have hobj : (obj.id == j) = false := by
      simp only [beq_eq_false_iff_ne]
      exact fun hh => h hh.symm
    by_cases ha : (a.id == obj.id) = true
    · have ha' : a.id = obj.id := by simpa using ha
      have haj : (a.id == j) = false := by rw [ha']; exact hobj
      simp only [dbSet, List.map_cons, ha, if_true]
      rw [dbGet_cons, dbGet_cons, hobj, haj]
      simp only [Bool.false_eq_true, if_false]
      exact ih
    · simp only [Bool.not_eq_true] at ha
      simp only [dbSet, List.map_cons, ha, Bool.false_eq_true, if_false]
      rw [dbGet_cons, dbGet_cons]
      by_cases hb : (a.id == j) = true
      · simp [hb]
      · simp only [Bool.not_eq_true] at hb
        simp only [hb, Bool.false_eq_true, if_false]
        exact ih

theorem dbGet_erase_self (db : DB) (i : Nat) :
    dbGet (dbEraseRow db i) i = none := by
  induction db with
  | nil => rfl
  | cons a l ih =>
    by_cases ha : (a.id != i) = true
    · have ha' : (a.id == i) = false := by simpa using ha
      simp only [dbEraseRow, List.filter_cons, ha, if_true] at ih ⊢
      rw [dbGet_cons, ha']
      simp only [Bool.false_eq_true, if_false]
      exact ih
    · simp only [Bool.not_eq_true] at ha
      simp only [dbEraseRow, List.filter_cons, ha, Bool.false_eq_true,
        if_false] at ih ⊢
      exact ih

theorem dbGet_erase_ne {db : DB} {i j : Nat} (h : j ≠ i) :
    dbGet (dbEraseRow db i) j = dbGet db j := by
  induction db with
  | nil => rfl
  | cons a l ih =>
    by_cases ha : (a.id != i) = true
    · simp only [dbEraseRow, List.filter_cons, ha, if_true] at ih ⊢
      rw [dbGet_cons, dbGet_cons]
      by_cases hb : (a.id == j) = true
      · simp [hb]
      · simp only [Bool.not_eq_true] at hb
        simp only [hb, Bool.false_eq_true, if_false]
        exact ih
    · have ha' : a.id = i := by simpa using ha
      have hb' : (a.id == j) = false := by
        simp only [beq_eq_false_iff_ne, ha']
        exact fun hh => h hh.symm
      simp only [Bool.not_eq_true] at ha
      simp only [dbEraseRow, List.filter_cons, ha, Bool.false_eq_true,
        if_false] at ih ⊢
      rw [dbGet_cons, hb']
      simp only [Bool.false_eq_true, if_false]
      exact ih

/-! ### Lemmas about the CRUD layer -/

theorem soft_delete_eq {db : DB} {i : Nat} {it : LibraryItem} (now : Nat)
    (h : dbGet db i = some it) :
    crud.soft_delete db i now =
      (dbSet db { it with deleted_at := some now, updated_at := now },
       some { it with deleted_at := some now, updated_at := now }) := by
  rw [crud.soft_delete, h]
  rfl

theorem soft_delete_get {db : DB} {i : Nat} {it : LibraryItem} (now : Nat)
    (h : dbGet db i = some it) :
    dbGet (crud.soft_delete db i now).1 i =
      some { it with deleted_at := some now, updated_at := now } := by
  have hid : it.id = i := dbGet_id h
  subst hid
  rw [soft_delete_eq now h]
  exact dbGet_dbSet_self h

theorem soft_delete_frame {db : DB} {i j : Nat} (now : Nat) (h : j ≠ i) :
    dbGet (crud.soft_delete db i now).1 j = dbGet db j := by
  rw [crud.soft_delete]
  cases hg : dbGet db i with
  | none => rfl
  | some obj =>
    have hid : obj.id = i := dbGet_id hg
    subst hid
    exact dbGet_dbSet_ne h

theorem restore_eq_deleted {db : DB} {i : Nat} {it : LibraryItem} (now : Nat)
    (h : dbGet db i = some it) (hd : it.deleted_at.isSome = true) :
    crud.restore db i now =
      (dbSet db { it with deleted_at := none, updated_at := now },
       some { it with deleted_at := none, updated_at := now }) := by
  rw [crud.restore, h]
  simp only [hd, if_true]
  rfl

theorem restore_eq_active {db : DB} {i : Nat} {it : LibraryItem} (now : Nat)
    (h : dbGet db i = some it) (hd : it.deleted_at = none) :
    crud.restore db i now = (db, some it) := by
  rw [crud.restore, h]
  simp [hd]

theorem restore_get {db : DB} {i : Nat} {it : LibraryItem} (now : Nat)
    (h : dbGet db i = some it) (hd : it.deleted_at.isSome = true) :
    dbGet (crud.restore db i now).1 i =
      some { it with deleted_at := none, updated_at := now } := by
  have hid : it.id = i := dbGet_id h
  subst hid
  rw [restore_eq_deleted now h hd]
  exact dbGet_dbSet_self h

theorem restore_frame {db : DB} {i j : Nat} (now : Nat) (h : j ≠ i) :
    dbGet (crud.restore db i now).1 j = dbGet db j := by
  rw [crud.restore]
  cases hg : dbGet db i with
  | none => rfl
  | some obj =>
    have hid : obj.id = i := dbGet_id hg
    subst hid
    by_cases hd : obj.deleted_at.isSome = true
    · simp only [hd, if_true]
      exact dbGet_dbSet_ne h
    · simp only [hd]
      rfl

theorem remove_frame {db : DB} {i j : Nat} (h : j ≠ i) :
    dbGet (crud.remove db i).1 j = dbGet db j := by
  rw [crud.remove]
  cases hg : dbGet db i with
  | none => rfl
  | some obj => exact dbGet_erase_ne h

theorem restore_item_eq_deleted {db : DB} {i : Nat} {it : LibraryItem}
    {uid : String} (t : Nat) (h : dbGet db i = some it)
    (hown : it.user_id = uid) (hd : it.deleted_at.isSome = true) :
    crud.restore_item db i uid t =
      (dbSet db { it with deleted_at := none, updated_at := t },
       some { it with deleted_at := none, updated_at := t }) := by
  rw [crud.restore_item]
  rw [show crud.get db i = some it from h]
  dsimp only
  rw [if_neg (by simp [hown])]
  exact restore_eq_deleted t h hd

theorem delete_item_eq_owner {db : DB} {i : Nat} {it : LibraryItem}
    {uid : String} (g : String → Bool) (sd : Bool) (now : Nat)
    (h : dbGet db i = some it) (hown : it.user_id = uid) :
    crud.delete_item db g i uid sd now =
      (if sd then
        ((crud.soft_delete db i now).1,
         (crud.truthyKeys it).map (fun k => (k, g k)),
         (crud.soft_delete db i now).2)
       else
        ((crud.remove db i).1,
         (crud.truthyKeys it).map (fun k => (k, g k)),
         (crud.remove db i).2)) := by
  rw [crud.delete_item]
  rw [show crud.get db i = some it from h]
  dsimp only
  rw [if_neg (by simp [hown])]

/-! ### Lemmas about the reconciliation loop -/

theorem getD_dbGet_id {db : DB} {j : Nat} {d : LibraryItem}
    (hd : d.id = j) : ((dbGet db j).getD d).id = j := by
  cases hg : dbGet db j with
  | none => simpa using hd
  | some x => simpa using dbGet_id hg

theorem syncStep_db_frame (f : String → Bool) (incl : Bool) (now : Nat)
    (st : SyncState) (item : LibraryItem) {j : Nat} (h : j ≠ item.id) :
    dbGet (syncStep f incl now st item).db j = dbGet st.db j := by
  rw [syncStep]
  by_cases hf : f item.s3_key = true
  · simp only [hf, if_true]
    by_cases hd : item.deleted_at.isSome = true
    · simp only [hd, if_true]
      exact restore_frame now h
    · simp only [hd, Bool.false_eq_true, if_false]
  · simp only [Bool.not_eq_true] at hf
    simp only [hf, Bool.false_eq_true, if_false]
    by_cases hd : item.deleted_at.isNone = true
    · simp only [hd, if_true]
      exact soft_delete_frame now h
    · simp only [hd, Bool.false_eq_true, if_false]

theorem syncStep_db_self (f : String → Bool) (incl : Bool) (now : Nat)
    (st : SyncState) {item : LibraryItem}
    (h : dbGet st.db item.id = some item) :
    dbGet (syncStep f incl now st item).db item.id =
      some (if f item.s3_key then
              (if item.deleted_at.isSome then
                { item with deleted_at := none, updated_at := now }
               else item)
            else
              (if item.deleted_at.isNone then
                { item with deleted_at := some now, updated_at := now }
               else item)) := by
  rw [syncStep]
  by_cases hf : f item.s3_key = true
  · simp only [hf, if_true]
    by_cases hd : item.deleted_at.isSome = true
    · simp only [hd, if_true]
      exact restore_get now h hd
    · simp only [hd, Bool.false_eq_true, if_false]
      exact h
  · simp only [Bool.not_eq_true] at hf
    simp only [hf, Bool.false_eq_true, if_false]
    by_cases hd : item.deleted_at.isNone = true
    · simp only [hd, if_true]
      exact soft_delete_get now h
    · simp only [hd, Bool.false_eq_true, if_false]
      exact h

theorem syncStep_valid_self (f : String → Bool) (incl : Bool) (now : Nat)
    (st : SyncState) {item : LibraryItem}
    (h : dbGet st.db item.id = some item) :
    (syncStep f incl now st item).valid_items =
      st.valid_items ++
        (if f item.s3_key then
          [if item.deleted_at.isSome then
             { item with deleted_at := none, updated_at := now }
           else item]
         else []) := by
  rw [syncStep]
  by_cases hf : f item.s3_key = true
  · simp only [hf, if_true]
    by_cases hd : item.deleted_at.isSome = true
    · simp only [hd, if_true]
      have hre := restore_get now h hd
      simp only [crud.get, hre, Option.getD_some]
      simp
    · simp only [hd, Bool.false_eq_true, if_false]
      have hda : item.deleted_at.isNone = true := by
        simp only [Bool.not_eq_true] at hd
        simpa [Option.isNone_iff_eq_none] using
          Option.not_isSome_iff_eq_none.mp (by simp [hd])
      simp [hda]
  · simp only [Bool.not_eq_true] at hf
    simp only [hf, Bool.false_eq_true, if_false]
    by_cases hd : item.deleted_at.isNone = true
    · simp [hd]
    · simp [hd]

theorem syncStep_valid_mem (f : String → Bool) (incl : Bool) (now : Nat)
    (st : SyncState) (item : LibraryItem) {z : LibraryItem}
    (h : z ∈ (syncStep f incl now st item).valid_items) :
    z ∈ st.valid_items ∨ z.id = item.id := by
  rw [syncStep] at h
  by_cases hf : f item.s3_key = true
  · simp only [hf, if_true] at h
    by_cases hd : item.deleted_at.isSome = true
    · simp only [hd, if_true] at h
      by_cases hc : (incl ||
          ((crud.get (crud.restore st.db item.id now).1 item.id).getD
            item).deleted_at.isNone) = true
      · simp only [hc, if_true, List.mem_append, List.mem_singleton] at h
        rcases h with h | h
        · exact Or.inl h
        · right
          rw [h]
          exact getD_dbGet_id rfl
      · simp only [Bool.not_eq_true] at hc
        simp only [hc, Bool.false_eq_true, if_false] at h
        exact Or.inl h
    · simp only [hd, Bool.false_eq_true, if_false] at h
      by_cases hc : (incl || item.deleted_at.isNone) = true
      · simp only [hc, if_true, List.mem_append, List.mem_singleton] at h
        rcases h with h | h
        · exact Or.inl h
        · right
          rw [h]
      · simp only [Bool.not_eq_true] at hc
        simp only [hc, Bool.false_eq_true, if_false] at h
        exact Or.inl h
  · simp only [Bool.not_eq_true] at hf
    simp only [hf, Bool.false_eq_true, if_false] at h
    by_cases hd : item.deleted_at.isNone = true
    · simp only [hd, if_true] at h
      exact Or.inl h
    · simp only [hd, Bool.false_eq_true, if_false] at h
      exact Or.inl h

theorem syncStep_valid_mono (f : String → Bool) (incl : Bool) (now : Nat)
    (st : SyncState) (item : LibraryItem) {z : LibraryItem}
    (h : z ∈ st.valid_items) :
    z ∈ (syncStep f incl now st item).valid_items := by
  rw [syncStep]
  by_cases hf : f item.s3_key = true
  · simp only [hf, if_true]
    by_cases hd : item.deleted_at.isSome = true
    · simp only [hd, if_true]
      by_cases hc : (incl ||
          ((crud.get (crud.restore st.db item.id now).1 item.id).getD
            item).deleted_at.isNone) = true
      · simp only [hc, if_true, List.mem_append]
        exact Or.inl h
      · simp only [Bool.not_eq_true] at hc
        simp only [hc, Bool.false_eq_true, if_false]
        exact h
    · simp only [hd, Bool.false_eq_true, if_false]
      by_cases hc : (incl || item.deleted_at.isNone) = true
      · simp only [hc, if_true, List.mem_append]
        exact Or.inl h
      · simp only [Bool.not_eq_true] at hc
        simp only [hc, Bool.false_eq_true, if_false]
        exact h
  · simp only [Bool.not_eq_true] at hf
    simp only [hf, Bool.false_eq_true, if_false]
    by_cases hd : item.deleted_at.isNone = true
    · simp only [hd, if_true]
      exact h
    · simp only [hd, Bool.false_eq_true, if_false]
      exact h

theorem syncStep_valid_length (f : String → Bool) (incl : Bool) (now : Nat)
    (st : SyncState) (item : LibraryItem) :
    (syncStep f incl now st item).valid_items.length ≤
      st.valid_items.length + 1 := by
  rw [syncStep]
  by_cases hf : f item.s3_key = true
  · simp only [hf, if_true]
    by_cases hd : item.deleted_at.isSome = true
    · simp only [hd, if_true]
      by_cases hc : (incl ||
          ((crud.get (crud.restore st.db item.id now).1 item.id).getD
            item).deleted_at.isNone) = true
      · simp [hc]
      · simp only [Bool.not_eq_true] at hc
        simp [hc]
    · simp only [hd, Bool.false_eq_true, if_false]
      by_cases hc : (incl || item.deleted_at.isNone) = true
      · simp [hc]
      · simp only [Bool.not_eq_true] at hc
        simp [hc]
  · simp only [Bool.not_eq_true] at hf
    simp only [hf, Bool.false_eq_true, if_false]
    by_cases hd : item.deleted_at.isNone = true
    · simp [hd]
    · simp [hd]

theorem foldl_db_frame (f : String → Bool) (incl : Bool) (now : Nat)
    {j : Nat} :
    ∀ (l : List LibraryItem) (st : SyncState), (∀ y ∈ l, y.id ≠ j) →
      dbGet ((l.foldl (syncStep f incl now) st)).db j = dbGet st.db j := by
  intro l
  induction l with
  | nil => intro st _; rfl
  | cons a t ih =>
    intro st hl
    rw [List.foldl_cons]
    rw [ih (syncStep f incl now st a)
      (fun y hy => hl y (List.mem_cons_of_mem a hy))]
    exact syncStep_db_frame f incl now st a
      (fun hh => hl a (List.mem_cons_self a t) hh.symm)

theorem foldl_valid_mem (f : String → Bool) (incl : Bool) (now : Nat) :
    ∀ (l : List LibraryItem) (st : SyncState) {z : LibraryItem},
      z ∈ (l.foldl (syncStep f incl now) st).valid_items →
      z ∈ st.valid_items ∨ ∃ y, y ∈ l ∧ z.id = y.id := by
  intro l
  induction l with
  | nil =>
    intro st z h
    exact Or.inl h
  | cons a t ih =>
    intro st z h
    rw [List.foldl_cons] at h
    rcases ih (syncStep f incl now st a) h with h1 | ⟨y, hy, hzy⟩
    · rcases syncStep_valid_mem f incl now st a h1 with h2 | h2
      · exact Or.inl h2
      · exact Or.inr ⟨a, List.mem_cons_self a t, h2⟩
    · exact Or.inr ⟨y, List.mem_cons_of_mem a hy, hzy⟩

theorem foldl_valid_mono (f : String → Bool) (incl : Bool) (now : Nat) :
    ∀ (l : List LibraryItem) (st : SyncState) {z : LibraryItem},
      z ∈ st.valid_items →
      z ∈ (l.foldl (syncStep f incl now) st).valid_items := by
  intro l
  induction l with
  | nil =>
    intro st z h
    exact h
  | cons a t ih =>
    intro st z h
    rw [List.foldl_cons]
    exact ih (syncStep f incl now st a) (syncStep_valid_mono f incl now st a h)

theorem foldl_valid_length (f : String → Bool) (incl : Bool) (now : Nat) :
    ∀ (l : List LibraryItem) (st : SyncState),
      (l.foldl (syncStep f incl now) st).valid_items.length ≤
        st.valid_items.length + l.length := by
  intro l
  induction l with
  | nil =>
    intro st
    simp
  | cons a t ih =>
    intro st
    rw [List.foldl_cons]
    calc ((t.foldl (syncStep f incl now) (syncStep f incl now st a)).valid_items).length
        ≤ (syncStep f incl now st a).valid_items.length + t.length :=
          ih (syncStep f incl now st a)
      _ ≤ (st.valid_items.length + 1) + t.length := by
          have := syncStep_valid_length f incl now st a
          omega
      _ = st.valid_items.length + (a :: t).length := by
          simp [List.length_cons]
          omega

/-- Combined effect of the reconciliation loop on one candidate row `x`,
assuming the other candidates have different primary keys (as rows fetched
from a table with a primary key do) and `x` is the current row for its id:
the persisted row ends in the reconciled state dictated by the blob-store
observation, and a row with `x`'s id is in `valid_items` iff the blob
store reported `x.s3_key` present. -/
theorem loop_split (f : String → Bool) (incl : Bool) (now : Nat) (db : DB)
    (l1 l2 : List LibraryItem) (x : LibraryItem)
    (h1 : ∀ y ∈ l1, y.id ≠ x.id) (h2 : ∀ y ∈ l2, y.id ≠ x.id)
    (hcur : dbGet db x.id = some x) :
    dbGet ((l1 ++ x :: l2).foldl (syncStep f incl now)
        { db := db, valid_items := [], deleted_count := 0,
          restored_count := 0 }).db x.id =
      some (if f x.s3_key then
              (if x.deleted_at.isSome then
                { x with deleted_at := none, updated_at := now }
               else x)
            else
              (if x.deleted_at.isNone then
                { x with deleted_at := some now, updated_at := now }
               else x)) ∧
    ((∃ z ∈ ((l1 ++ x :: l2).foldl (syncStep f incl now)
        { db := db, valid_items := [], deleted_count := 0,
          restored_count := 0 }).valid_items, z.id = x.id) ↔
      f x.s3_key = true) := by
  rw [List.foldl_append, List.foldl_cons]
  have hst1 : dbGet ((l1.foldl (syncStep f incl now)
      { db := db, valid_items := [], deleted_count := 0,
        restored_count := 0 })).db x.id = some x := by
    rw [foldl_db_frame f incl now l1 _ h1]
    exact hcur
  have hst1v : ∀ z ∈ (l1.foldl (syncStep f incl now)
      { db := db, valid_items := [], deleted_count := 0,
        restored_count := 0 }).valid_items, z.id ≠ x.id := by
    intro z hz
    rcases foldl_valid_mem f incl now l1 _ hz with hz0 | ⟨y, hy, hzy⟩
    · simp at hz0
    · rw [hzy]
      exact h1 y hy
  constructor
  · rw [foldl_db_frame f incl now l2 _ h2]
    exact syncStep_db_self f incl now _ hst1
  · constructor
    · rintro ⟨z, hz, hzid⟩
      rcases foldl_valid_mem f incl now l2 _ hz with hz2 | ⟨y, hy, hzy⟩
      · rw [syncStep_valid_self f incl now _ hst1] at hz2
        rcases List.mem_append.mp hz2 with hz1 | happ
        · exact absurd hzid (hst1v z hz1)
        · by_cases hf : f x.s3_key = true
          · exact hf
          · simp only [Bool.not_eq_true] at hf
            simp [hf] at happ
      · exact absurd (hzy ▸ hzid) (h2 y hy)
    · intro hf
      refine ⟨if x.deleted_at.isSome then
          { x with deleted_at := none, updated_at := now } else x, ?_, ?_⟩
      · apply foldl_valid_mono
        rw [syncStep_valid_self f incl now _ hst1, hf]
        simp
      · by_cases hd : x.deleted_at.isSome = true
        · simp [hd]
        · simp [hd]

theorem get_my_library_items_db_eq (db : DB) (f : String → Bool)
    (uid : String) (skip limit : Nat) (itf : Option ItemType)
    (sq : Option String) (incl : Bool) (now : Nat) :
    (get_my_library_items db f uid skip limit itf sq incl now).db =
      ((fetchCandidates db uid skip (min limit 100) itf sq).foldl
        (syncStep f incl now)
        { db := db, valid_items := [], deleted_count := 0,
          restored_count := 0 }).db := rfl

theorem get_my_library_items_items_eq (db : DB) (f : String → Bool)
    (uid : String) (skip limit : Nat) (itf : Option ItemType)
    (sq : Option String) (incl : Bool) (now : Nat) :
    (get_my_library_items db f uid skip limit itf sq incl now).items =
      ((fetchCandidates db uid skip (min limit 100) itf sq).foldl
        (syncStep f incl now)
        { db := db, valid_items := [], deleted_count := 0,
          restored_count := 0 }).valid_items := rfl

/-! ### Concrete sample rows, used by witnesses and counterexamples -/

/-- Sample row: an active, private document owned by alice. -/
def itemA : LibraryItem :=
  { id := 1, user_id := "alice", name := "notes",
    type := ItemType.document, mime_type := "application/pdf",
    visibility := VisibilityType.«private»,
    s3_thumbnail_key := none, s3_preview_key := none,
    s3_subtitle_key := none, s3_key := "uploads/alice/notes.pdf",
    file_size := 100, preview_text := none,
    original_filename := "notes.pdf", created_at := 10, updated_at := 10,
    deleted_at := none }

/-- Sample row: a soft-deleted document owned by alice. -/
def itemDel : LibraryItem :=
  { itemA with
    id := 2,
    s3_key := "uploads/alice/old.pdf",
    deleted_at := some 5 }

/-- Sample row: an active public image owned by alice. -/
def itemPub : LibraryItem :=
  { itemA with
    id := 3,
    visibility := VisibilityType.public,
    type := ItemType.image,
    s3_key := "uploads/alice/cat.jpg" }

/-- Sample row: a video with all four S3 keys populated. -/
def itemVid : LibraryItem :=
  { itemA with
    id := 4,
    type := ItemType.video,
    mime_type := "video/mp4",
    s3_key := "uploads/alice/v.mp4",
    s3_preview_key := some "uploads/alice/v-preview.mp4",
    s3_thumbnail_key := some "uploads/alice/v-thumb.jpg",
    s3_subtitle_key := some "uploads/alice/v.vtt" }

/-! ### The claims -/

/-- C1: During the list-items operation, reconciliation follows the
specified state machine for every fetched candidate item: if the blob
store reports the item's storage key present and the item is
soft-deleted, its `deleted_at` is cleared (restore); if the key is absent
and the item is active, `deleted_at` is set to the current time; in the
two remaining cases the item's `deleted_at` is left unchanged. -/
theorem C1_reconciliation_state_machine (db : DB) (f : String → Bool)
    (uid : String) (skip limit : Nat) (itf : Option ItemType)
    (sq : Option String) (incl : Bool) (now : Nat)
    (l1 l2 : List LibraryItem) (x : LibraryItem)
    (hsplit : fetchCandidates db uid skip (min limit 100) itf sq =
      l1 ++ x :: l2)
    (h1 : ∀ y ∈ l1, y.id ≠ x.id) (h2 : ∀ y ∈ l2, y.id ≠ x.id)
    (hcur : dbGet db x.id = some x) :
    (f x.s3_key = true → x.deleted_at ≠ none →
      (dbGet (get_my_library_items db f uid skip limit itf sq incl
        now).db x.id).map LibraryItem.deleted_at = some none) ∧
    (f x.s3_key = false → x.deleted_at = none →
      (dbGet (get_my_library_items db f uid skip limit itf sq incl
        now).db x.id).map LibraryItem.deleted_at = some (some now)) ∧
    (f x.s3_key = true → x.deleted_at = none →
      (dbGet (get_my_library_items db f uid skip limit itf sq incl
        now).db x.id).map LibraryItem.deleted_at = some x.deleted_at) ∧
    (f x.s3_key = false → x.deleted_at ≠ none →
      (dbGet (get_my_library_items db f uid skip limit itf sq incl
        now).db x.id).map LibraryItem.deleted_at = some x.deleted_at) := by
  rw [get_my_library_items_db_eq, hsplit]
  rw [(loop_split f incl now db l1 l2 x h1 h2 hcur).1]
  refine ⟨?_, ?_, ?_, ?_⟩ <;> intro hf hd
  · obtain ⟨t, ht⟩ := Option.ne_none_iff_exists'.mp hd
    simp [hf, ht]
  · simp [hf, hd]
  · simp [hf, hd]
  · obtain ⟨t, ht⟩ := Option.ne_none_iff_exists'.mp hd
    simp [hf, ht]

/-- C1 witness: a single active item whose blob is reported absent is
auto soft-deleted with the current time. -/
theorem C1_witness :
    (dbGet (get_my_library_items [itemA] (fun _ => false) "alice" 0 20
      none none false 7).db itemA.id).map LibraryItem.deleted_at =
      some (some 7) :=
  (C1_reconciliation_state_machine [itemA] (fun _ => false) "alice" 0 20
    none none false 7 [] [] itemA rfl (by simp) (by simp) rfl).2.1
    rfl rfl

/-- C2: an item considered by the list-items operation appears in the
returned list only if `include_deleted` is true or its post-reconciliation
`deleted_at` is null; with `include_deleted` false it is excluded exactly
when its post-reconciliation `deleted_at` is non-null. -/
theorem C2_listing_exclusion (db : DB) (f : String → Bool)
    (uid : String) (skip limit : Nat) (itf : Option ItemType)
    (sq : Option String) (incl : Bool) (now : Nat)
    (l1 l2 : List LibraryItem) (x : LibraryItem)
    (hsplit : fetchCandidates db uid skip (min limit 100) itf sq =
      l1 ++ x :: l2)
    (h1 : ∀ y ∈ l1, y.id ≠ x.id) (h2 : ∀ y ∈ l2, y.id ≠ x.id)
    (hcur : dbGet db x.id = some x) :
    ((∃ z ∈ (get_my_library_items db f uid skip limit itf sq incl
        now).items, z.id = x.id) →
      (incl = true ∨
        (dbGet (get_my_library_items db f uid skip limit itf sq incl
          now).db x.id).map LibraryItem.deleted_at = some none)) ∧
    (incl = false →
      ((¬ ∃ z ∈ (get_my_library_items db f uid skip limit itf sq incl
          now).items, z.id = x.id) ↔
        ¬ (dbGet (get_my_library_items db f uid skip limit itf sq incl
          now).db x.id).map LibraryItem.deleted_at = some none)) := by
  rw [get_my_library_items_db_eq, get_my_library_items_items_eq, hsplit]
  have hmain := loop_split f incl now db l1 l2 x h1 h2 hcur
  have hpost : (dbGet ((l1 ++ x :: l2).foldl (syncStep f incl now)
      { db := db, valid_items := [], deleted_count := 0,
        restored_count := 0 }).db x.id).map LibraryItem.deleted_at =
      some none ↔ f x.s3_key = true := by
    rw [hmain.1]
    by_cases hf : f x.s3_key = true
    · cases hd : x.deleted_at with
      | none => simp [hf, hd]
      | some t => simp [hf, hd]
    · simp only [Bool.not_eq_true] at hf
      cases hd : x.deleted_at with
      | none => simp [hf, hd]
      | some t => simp [hf, hd]
  constructor
  · intro hx
    exact Or.inr (hpost.mpr (hmain.2.mp hx))
  · intro _
    exact not_congr (hmain.2.trans hpost.symm)

/-- C2 witness: with `include_deleted = false`, a soft-deleted item whose
blob reappears is restored and therefore not excluded. -/
theorem C2_witness :
    (¬ ∃ z ∈ (get_my_library_items [itemDel] (fun _ => true) "alice" 0 20
        none none false 9).items, z.id = itemDel.id) ↔
      ¬ (dbGet (get_my_library_items [itemDel] (fun _ => true) "alice" 0
        20 none none false 9).db itemDel.id).map LibraryItem.deleted_at =
        some none :=
  (C2_listing_exclusion [itemDel] (fun _ => true) "alice" 0 20 none none
    false 9 [] [] itemDel rfl (by simp) (by simp) rfl).2 rfl

theorem map_fst_pair (g : String → Bool) :
    ∀ l : List String, l.map (Prod.fst ∘ fun k => (k, g k)) = l := by
  intro l
  induction l with
  | nil => rfl
  | cons a t ih => simp [Function.comp, ih]

/-- C3: for every requester different from the item's owner (and for a
non-existent item id), update, delete and restore each return the
not-found sentinel, surfaced as a 404 (never Forbidden), leave the table
unchanged, and issue no blob delete. -/
theorem C3_non_owner_not_found (db : DB) (g : String → Bool)
    (item_id : Nat) (uid : String) (u : LibraryItemUpdate)
    (perm : Option Bool) (sd : Bool) (t1 t2 t3 : Nat)
    (hno : ∀ it, crud.get db item_id = some it → it.user_id ≠ uid) :
    update_library_item db item_id uid u t1 = (db, ApiResult.notFound) ∧
    delete_library_item db g item_id uid perm t2 =
      (db, [], ApiResult.notFound) ∧
    restore_library_item db item_id uid t3 = (db, ApiResult.notFound) ∧
    crud.update_item db item_id uid u t1 = (db, none) ∧
    crud.delete_item db g item_id uid sd t2 = (db, [], none) ∧
    crud.restore_item db item_id uid t3 = (db, none) := by
  cases hh : crud.get db item_id with
  | none =>
    refine ⟨?_, ?_, ?_, ?_, ?_, ?_⟩ <;>
      simp [update_library_item, delete_library_item,
        restore_library_item, crud.update_item, crud.delete_item,
        crud.restore_item, hh]
  | some it =>
    have hne := hno it hh
    refine ⟨?_, ?_, ?_, ?_, ?_, ?_⟩ <;>
      simp [update_library_item, delete_library_item,
        restore_library_item, crud.update_item, crud.delete_item,
        crud.restore_item, hh, hne]

/-- C3 witness: bob cannot update, delete or restore alice's item; each
operation reports not-found and changes nothing. -/
theorem C3_witness :
    update_library_item [itemA] 1 "bob" ⟨none, none, none⟩ 3 =
      ([itemA], ApiResult.notFound) ∧
    delete_library_item [itemA] (fun _ => true) 1 "bob" none 3 =
      ([itemA], [], ApiResult.notFound) ∧
    restore_library_item [itemA] 1 "bob" 3 =
      ([itemA], ApiResult.notFound) := by
  have h := C3_non_owner_not_found [itemA] (fun _ => true) 1 "bob"
    ⟨none, none, none⟩ none true 3 3 3
    (by
      intro it hit
      have h2 : some itemA = some it := hit
      cases h2
      decide)
  exact ⟨h.1, h.2.1, h.2.2.1⟩

/-- C4 counterexample: for the concrete active item `itemA`
(`updated_at = 10`), soft delete at time 11 followed by restore at time
12 brings the item back to `deleted_at = none`, but `updated_at` is now
12, so not every field other than `deleted_at` is preserved and the
final row differs from the original. -/
theorem C4_counterexample :
    (crud.get (crud.restore_item
        (crud.delete_item [itemA] (fun _ => true) 1 "alice" true 11).1
        1 "alice" 12).1 1).map LibraryItem.updated_at = some 12 ∧
    itemA.updated_at = 10 ∧
    itemA.deleted_at = none ∧
    (crud.get (crud.restore_item
        (crud.delete_item [itemA] (fun _ => true) 1 "alice" true 11).1
        1 "alice" 12).1 1).map LibraryItem.deleted_at = some none ∧
    ¬ (crud.get (crud.restore_item
        (crud.delete_item [itemA] (fun _ => true) 1 "alice" true 11).1
        1 "alice" 12).1 1) = some itemA := by
  refine ⟨by decide, rfl, rfl, by decide, by decide⟩

/-- C4 (amended): for every active item, soft delete followed by restore
by the owner returns the item to Active with every field other than
`deleted_at` and `updated_at` identical; `updated_at` is refreshed to
the restore time by the column's `onupdate` clock. -/
theorem C4_soft_delete_restore_roundtrip (db : DB) (g : String → Bool)
    (it : LibraryItem) (uid : String) (t1 t2 : Nat)
    (hget : crud.get db it.id = some it) (hact : it.deleted_at = none)
    (hown : it.user_id = uid) :
    crud.get (crud.restore_item
        (crud.delete_item db g it.id uid true t1).1 it.id uid t2).1
      it.id = some { it with updated_at := t2 } := by
  have hget' : dbGet db it.id = some it := hget
  have hd1 : (crud.delete_item db g it.id uid true t1).1 =
      dbSet db { it with deleted_at := some t1, updated_at := t1 } := by
    simp [crud.delete_item, hget, hown, soft_delete_eq t1 hget']
  have hrow : dbGet (crud.delete_item db g it.id uid true t1).1 it.id =
      some { it with deleted_at := some t1, updated_at := t1 } := by
    rw [hd1]
    exact dbGet_dbSet_self hget'
  have hri := restore_item_eq_deleted t2 hrow hown rfl
  have hsimp : ({ ({ it with deleted_at := some t1, updated_at := t1 } :
        LibraryItem) with deleted_at := none, updated_at := t2 } :
      LibraryItem) = { it with deleted_at := none, updated_at := t2 } :=
    rfl
  rw [hsimp] at hri
  have hfin : crud.get (crud.restore_item
      (crud.delete_item db g it.id uid true t1).1 it.id uid t2).1 it.id =
      some { it with deleted_at := none, updated_at := t2 } := by
    rw [hri]
    exact dbGet_dbSet_at { it with deleted_at := none, updated_at := t2 }
      rfl hrow
  rw [hfin]
  rw [show ({ it with updated_at := t2 } : LibraryItem) =
    { it with updated_at := t2, deleted_at := it.deleted_at } from rfl]
  rw [hact]

/-- C4 witness for the amended claim, at the concrete item `itemA`. -/
theorem C4_witness :
    crud.get (crud.restore_item
        (crud.delete_item [itemA] (fun _ => true) 1 "alice" true 11).1
        1 "alice" 12).1 1 = some { itemA with updated_at := 12 } :=
  C4_soft_delete_restore_roundtrip [itemA] (fun _ => true) itemA "alice"
    11 12 rfl rfl rfl

/-- C5: after a successful permanent delete by the owner the record is
absent; every subsequent restore, read, update, delete, soft delete for
that id reports not-found (the sentinel) and leaves the table unchanged,
so no operation can return the item to Active or SoftDeleted. -/
theorem C5_permanent_delete_irreversible (db : DB) (g : String → Bool)
    (id : Nat) (uid : String) (now : Nat) (it : LibraryItem) (db1 : DB)
    (dels : List (String × Bool)) (res : Option LibraryItem)
    (hget : crud.get db id = some it) (hown : it.user_id = uid)
    (hrun : crud.delete_item db g id uid false now = (db1, dels, res)) :
    res = some it ∧
    crud.get db1 id = none ∧
    (∀ uid2 t, crud.restore_item db1 id uid2 t = (db1, none)) ∧
    (∀ uid2 t, restore_library_item db1 id uid2 t =
      (db1, ApiResult.notFound)) ∧
    (∀ cu, get_library_item db1 id cu = ApiResult.notFound) ∧
    (∀ uid2 u t, crud.update_item db1 id uid2 u t = (db1, none)) ∧
    (∀ g2 uid2 sd t, crud.delete_item db1 g2 id uid2 sd t =
      (db1, [], none)) ∧
    (∀ t, crud.soft_delete db1 id t = (db1, none)) ∧
    (∀ t, crud.restore db1 id t = (db1, none)) := by
  have hget' : dbGet db id = some it := hget
  have hcall : crud.delete_item db g id uid false now =
      (dbEraseRow db id,
       (crud.truthyKeys it).map (fun k => (k, g k)), some it) := by
    simp [crud.delete_item, crud.remove, hget, hget', hown]
  rw [hcall] at hrun
  have hdb1 : db1 = dbEraseRow db id := by
    have := congrArg Prod.fst hrun
    simpa using this.symm
  have hres : res = some it := by
    have := congrArg (fun p => p.2.2) hrun
    simpa using this.symm
  have hnone : crud.get db1 id = none := by
    rw [hdb1]
    exact dbGet_erase_self db id
  refine ⟨hres, hnone, ?_, ?_, ?_, ?_, ?_, ?_, ?_⟩
  · intro uid2 t
    simp [crud.restore_item, hnone]
  · intro uid2 t
    simp [restore_library_item, crud.restore_item, hnone]
  · intro cu
    simp [get_library_item, hnone]
  · intro uid2 u t
    simp [crud.update_item, hnone]
  · intro g2 uid2 sd t
    simp [crud.delete_item, hnone]
  · intro t
    have hnone' : dbGet db1 id = none := hnone
    simp [crud.soft_delete, hnone']
  · intro t
    have hnone' : dbGet db1 id = none := hnone
    simp [crud.restore, hnone']

/-- C5 witness: after permanently deleting alice's only item, the table
is empty and restore / read report not-found. -/
theorem C5_witness :
    crud.get ([] : DB) 1 = none ∧
    crud.restore_item ([] : DB) 1 "alice" 4 = ([], none) ∧
    get_library_item ([] : DB) 1 (some "alice") = ApiResult.notFound := by
  have h := C5_permanent_delete_irreversible [itemA] (fun _ => true) 1
    "alice" 3 itemA [] [("uploads/alice/notes.pdf", true)] (some itemA)
    rfl rfl rfl
  exact ⟨h.2.1, h.2.2.1 "alice" 4, h.2.2.2.2.1 (some "alice")⟩

/-- C6: the single-item read returns not-found when the row is absent,
the item when the requester is the owner or the item is public, and
Forbidden otherwise. -/
theorem C6_single_item_read_access (db : DB) (id : Nat)
    (cu : Option String) :
    (crud.get db id = none →
      get_library_item db id cu = ApiResult.notFound) ∧
    (∀ it, crud.get db id = some it →
      ((is_owner cu it = true ∨ it.visibility = VisibilityType.public) →
        get_library_item db id cu = ApiResult.ok it) ∧
      (is_owner cu it = false →
        it.visibility = VisibilityType.«private» →
        get_library_item db id cu = ApiResult.forbidden)) := by
  constructor
  · intro h
    simp [get_library_item, h]
  · intro it hit
    constructor
    · intro hv
      rcases hv with ho | hp
      · simp [get_library_item, hit, ho]
      · have hb : (it.visibility == VisibilityType.public) = true := by
          rw [hp]
          rfl
        simp [get_library_item, hit, hb]
    · intro ho hp
      have hb : (it.visibility == VisibilityType.public) = false := by
        rw [hp]
        rfl
      simp [get_library_item, hit, ho, hb]

/-- C6 witness: a private item is readable by its owner, Forbidden for
another caller; a public item is readable by anyone; a missing id is
not-found. -/
theorem C6_witness :
    get_library_item [itemA] 1 (some "alice") = ApiResult.ok itemA ∧
    get_library_item [itemA] 1 (some "bob") = ApiResult.forbidden ∧
    get_library_item [itemPub] 3 (some "bob") = ApiResult.ok itemPub ∧
    get_library_item ([] : DB) 1 none = ApiResult.notFound := by
  refine ⟨?_, ?_, ?_, ?_⟩
  · exact ((C6_single_item_read_access [itemA] 1 (some "alice")).2 itemA
      rfl).1 (Or.inl (by decide))
  · exact ((C6_single_item_read_access [itemA] 1 (some "bob")).2 itemA
      rfl).2 (by decide) rfl
  · exact ((C6_single_item_read_access [itemPub] 3 (some "bob")).2
      itemPub rfl).1 (Or.inr rfl)
  · exact (C6_single_item_read_access ([] : DB) 1 none).1 rfl

/-- C7: an owner-authorized delete issues a blob delete for each truthy
key of the row (primary, preview, thumbnail, subtitle), the outcomes of
those blob deletes have no influence on the resulting table or returned
row, and the record is soft-deleted when soft and removed when
permanent, regardless of the blob outcomes. -/
theorem C7_delete_blob_cleanup (db : DB) (g : String → Bool) (id : Nat)
    (uid : String) (sd : Bool) (now : Nat) (it : LibraryItem)
    (hget : crud.get db id = some it) (hown : it.user_id = uid)
    (hk0 : it.s3_key ≠ "")
    (hk1 : ∀ k, it.s3_preview_key = some k → k ≠ "")
    (hk2 : ∀ k, it.s3_thumbnail_key = some k → k ≠ "")
    (hk3 : ∀ k, it.s3_subtitle_key = some k → k ≠ "") :
    ((crud.delete_item db g id uid sd now).2.1.map Prod.fst =
      crud.truthyKeys it) ∧
    it.s3_key ∈ crud.truthyKeys it ∧
    (∀ k, it.s3_preview_key = some k → k ∈ crud.truthyKeys it) ∧
    (∀ k, it.s3_thumbnail_key = some k → k ∈ crud.truthyKeys it) ∧
    (∀ k, it.s3_subtitle_key = some k → k ∈ crud.truthyKeys it) ∧
    (∀ g2, (crud.delete_item db g2 id uid sd now).1 =
        (crud.delete_item db g id uid sd now).1 ∧
      (crud.delete_item db g2 id uid sd now).2.2 =
        (crud.delete_item db g id uid sd now).2.2) ∧
    (sd = true →
      crud.get (crud.delete_item db g id uid sd now).1 id =
        some { it with deleted_at := some now, updated_at := now }) ∧
    (sd = false →
      crud.get (crud.delete_item db g id uid sd now).1 id = none) := by
  have hget' : dbGet db id = some it := hget
  refine ⟨?_, ?_, ?_, ?_, ?_, ?_, ?_, ?_⟩
  · rw [delete_item_eq_owner g sd now hget' hown]
    cases sd <;> simp [List.map_map, map_fst_pair]
  · simp [crud.truthyKeys, hk0]
  · intro k hk
    simp [crud.truthyKeys, hk, hk1 k hk]
  · intro k hk
    simp [crud.truthyKeys, hk, hk2 k hk]
  · intro k hk
    simp [crud.truthyKeys, hk, hk3 k hk]
  · intro g2
    rw [delete_item_eq_owner g sd now hget' hown,
      delete_item_eq_owner g2 sd now hget' hown]
    cases sd <;> simp
  · intro hsd
    subst hsd
    rw [delete_item_eq_owner g true now hget' hown]
    simp only [if_true]
    exact soft_delete_get now hget'
  · intro hsd
    subst hsd
    rw [delete_item_eq_owner g false now hget' hown]
    simp only [Bool.false_eq_true, if_false]
    rw [crud.remove, hget']
    exact dbGet_erase_self db id

/-- C7 witness: deleting the video item (all four keys populated) issues
deletes exactly for its four keys and soft-deletes the record even
though every blob delete fails. -/
theorem C7_witness :
    ((crud.delete_item [itemVid] (fun _ => false) 4 "alice" true
      6).2.1.map Prod.fst = crud.truthyKeys itemVid) ∧
    crud.get (crud.delete_item [itemVid] (fun _ => false) 4 "alice" true
      6).1 4 =
      some { itemVid with
             deleted_at := some 6,
             updated_at := 6 } := by
  have h := C7_delete_blob_cleanup [itemVid] (fun _ => false) 4 "alice"
    true 6 itemVid rfl rfl (by decide)
    (by
      intro k hk
      have h2 : some "uploads/alice/v-preview.mp4" = some k := hk
      cases h2
      decide)
    (by
      intro k hk
      have h2 : some "uploads/alice/v-thumb.jpg" = some k := hk
      cases h2
      decide)
    (by
      intro k hk
      have h2 : some "uploads/alice/v.vtt" = some k := hk
      cases h2
      decide)
  exact ⟨h.1, h.2.2.2.2.2.2.1 rfl⟩

/-- C8: the effective page size is the requested limit capped at 100, no
response holds more than 100 items, and the pagination metadata is
computed from `skip`, the effective limit, and the total recomputed
after reconciliation. -/
theorem C8_pagination_capped (db : DB) (f : String → Bool)
    (uid : String) (skip limit : Nat) (itf : Option ItemType)
    (sq : Option String) (incl : Bool) (now : Nat) (hpos : 0 < limit) :
    (get_my_library_items db f uid skip limit itf sq incl
      now).items.length ≤ 100 ∧
    (get_my_library_items db f uid skip limit itf sq incl
      now).items.length ≤ min limit 100 ∧
    (get_my_library_items db f uid skip limit itf sq incl
      now).pagination.size = min limit 100 ∧
    (get_my_library_items db f uid skip limit itf sq incl
      now).pagination.page = skip / min limit 100 + 1 ∧
    (get_my_library_items db f uid skip limit itf sq incl
      now).pagination.total =
      crud.count_user_items (get_my_library_items db f uid skip limit
        itf sq incl now).db uid none incl ∧
    (get_my_library_items db f uid skip limit itf sq incl
      now).pagination.pages =
      max 1 (((get_my_library_items db f uid skip limit itf sq incl
        now).pagination.total + min limit 100 - 1) / min limit 100) ∧
    (get_my_library_items db f uid skip limit itf sq incl
      now).pagination.has_next =
      decide ((get_my_library_items db f uid skip limit itf sq incl
        now).pagination.page <
        (get_my_library_items db f uid skip limit itf sq incl
          now).pagination.pages) ∧
    (get_my_library_items db f uid skip limit itf sq incl
      now).pagination.has_prev =
      decide (1 < (get_my_library_items db f uid skip limit itf sq incl
        now).pagination.page) := by
  have hlen : (fetchCandidates db uid skip (min limit 100) itf
      sq).length ≤ min limit 100 := by
    rw [fetchCandidates.eq_def]
    cases sq with
    | none =>
      cases itf with
      | none =>
        simp only [crud.get_by_user]
        exact List.length_take_le _ _
      | some t =>
        simp only [crud.get_by_type]
        exact List.length_take_le _ _
    | some q =>
      by_cases hq : q.isEmpty = true
      · simp only [hq, if_true]
        cases itf with
        | none =>
          simp only [crud.get_by_user]
          exact List.length_take_le _ _
        | some t =>
          simp only [crud.get_by_type]
          exact List.length_take_le _ _
      · simp only [hq, Bool.false_eq_true, if_false]
        simp only [crud.search_items]
        exact List.length_take_le _ _
  have hvalid := foldl_valid_length f incl now
    (fetchCandidates db uid skip (min limit 100) itf sq)
    { db := db, valid_items := [], deleted_count := 0,
      restored_count := 0 }
  simp only [List.length_nil, Nat.zero_add] at hvalid
  have hitems : (get_my_library_items db f uid skip limit itf sq incl
      now).items.length ≤ min limit 100 := by
    rw [get_my_library_items_items_eq]
    exact le_trans hvalid hlen
  refine ⟨le_trans hitems (Nat.min_le_right limit 100), hitems,
    rfl, rfl, rfl, rfl, rfl, rfl⟩

/-- C8 witness: a request with limit 20 yields at most 100 items. -/
theorem C8_witness :
    0 < 20 ∧
    (get_my_library_items [itemA] (fun _ => true) "alice" 0 20 none none
      false 7).items.length ≤ 100 :=
  ⟨by decide, (C8_pagination_capped [itemA] (fun _ => true) "alice" 0 20
    none none false 7 (by decide)).1⟩

/-- C9: the `permanent` query parameter of the delete endpoint defaults
to true, so an owner's delete request that omits the flag is a permanent
delete: it reports `permanent = true` and removes the record. -/
theorem C9_delete_default_permanent (db : DB) (g : String → Bool)
    (id : Nat) (uid : String) (now : Nat) (it : LibraryItem)
    (hget : crud.get db id = some it) (hown : it.user_id = uid) :
    (delete_library_item db g id uid none now).2.2 = ApiResult.ok true ∧
    crud.get (delete_library_item db g id uid none now).1 id = none ∧
    delete_library_item db g id uid none now =
      delete_library_item db g id uid (some true) now := by
  have hget' : dbGet db id = some it := hget
  refine ⟨?_, ?_, rfl⟩
  · simp [delete_library_item, crud.delete_item, hget, hown, crud.remove,
      hget']
  · simp [delete_library_item, crud.delete_item, hget, hown, crud.remove,
      hget', crud.get, dbGet_erase_self]

/-- C9 witness: omitting the flag removes alice's record entirely. -/
theorem C9_witness :
    crud.get (delete_library_item [itemA] (fun _ => true) 1 "alice" none
      3).1 1 = none :=
  (C9_delete_default_permanent [itemA] (fun _ => true) 1 "alice" 3 itemA
    rfl rfl).2.1

/-- C10: the single-item read ignores soft-delete state: an existing,
soft-deleted row is never reported as not-found, and is returned
whenever the requester is the owner or the item is public. -/
theorem C10_read_ignores_soft_delete (db : DB) (id : Nat)
    (it : LibraryItem) (t : Nat) (hget : crud.get db id = some it)
    (hdel : it.deleted_at = some t) :
    (∀ cu, get_library_item db id cu ≠ ApiResult.notFound) ∧
    (∀ cu, (is_owner cu it = true ∨
        it.visibility = VisibilityType.public) →
      get_library_item db id cu = ApiResult.ok it) := by
  constructor
  · intro cu
    simp only [get_library_item, hget]
    by_cases ho : (is_owner cu it ||
        (it.visibility == VisibilityType.public)) = true
    · simp [ho]
    · simp [ho]
  · intro cu hv
    rcases hv with ho | hp
    · simp [get_library_item, hget, ho]
    · have hb : (it.visibility == VisibilityType.public) = true := by
        rw [hp]
        rfl
      simp [get_library_item, hget, hb]

/-- C10 witness: the soft-deleted item `itemDel` is still returned to
its owner by direct read. -/
theorem C10_witness :
    get_library_item [itemDel] 2 (some "alice") = ApiResult.ok itemDel :=
  (C10_read_ignores_soft_delete [itemDel] 2 itemDel 5 rfl rfl).2
    (some "alice") (Or.inl (by decide))

end LibraryBackend
